import Mathlib

/-
Verification of the mytime planner core (src/mytime.py): time-grid mapping,
drag move/resize commit, recurrence expansion, task-hierarchy filtering,
and the minimal ICS codec.  Python integers are modelled as Int/Nat
(Python `//` is `Int.fdiv`, Python `%` on a positive modulus is `Int.emod`),
naive datetimes as explicit records, and Python strings as `List Char`.
-/

namespace MyTime

/-! ## Module-level constants (mytime.py lines 12-21) -/

def HOUR_START : Nat := 0
def HOUR_END : Nat := 24
def MINUTE_STEP : Nat := 15
def ROW_HEIGHT : Nat := 28
def EVENT_MIN_HEIGHT : Nat := 12
def DEFAULT_DAILY_SPAN_DAYS : Nat := 30
def DEFAULT_WEEKLY_SPAN_WEEKS : Nat := 8

/-- Embeds `clamp(val, lo, hi) = max(lo, min(hi, val))` (mytime.py line 102). -/
def clamp (val lo hi : Int) : Int := max lo (min hi val)

/-! ## Times and naive datetimes

`Time` embeds Python `datetime.time` (time of day), `Instant` embeds a naive
`datetime.datetime` with the date abstracted to its ordinal day index `day`
(Python date arithmetic with `timedelta` is isomorphic to arithmetic on the
ordinal).  Calendar-structured datetimes for the ICS codec are introduced
separately below as `PyDateTime`. -/

structure Time where
  hour : Nat
  minute : Nat
  second : Nat
  microsecond : Nat
  deriving Repr, DecidableEq

/-- Total microseconds since midnight; realises Python's ordering of
`datetime.time` values. -/
def Time.toUsec (t : Time) : Nat :=
  ((t.hour * 60 + t.minute) * 60 + t.second) * 1000000 + t.microsecond

/-- Embeds `y_to_time` (mytime.py lines 105-110): floor-divide the pixel coordinate
by `ROW_HEIGHT`, convert steps to minutes, and take the time-of-day of
`datetime.combine(today, time(HOUR_START, 0)) + timedelta(minutes=minutes)`
(the `.time()` projection wraps modulo one day). -/
def y_to_time (y : Int) : Time :=
  let minutes : Int := (HOUR_START : Int) * 60 + (y.fdiv (ROW_HEIGHT : Int)) * (MINUTE_STEP : Int)
  let m : Nat := (minutes % 1440).toNat
  ⟨m / 60, m % 60, 0, 0⟩

/-- Embeds `time_to_y` (mytime.py lines 112-115). -/
def time_to_y (t : Time) : Int :=
  let minutes_since_start : Int := ((t.hour : Int) - (HOUR_START : Int)) * 60 + (t.minute : Int)
  (minutes_since_start.fdiv (MINUTE_STEP : Int)) * (ROW_HEIGHT : Int)

/-- Naive `datetime.datetime` with the date as an ordinal day index. -/
structure Instant where
  day : Int
  hour : Nat
  minute : Nat
  second : Nat
  microsecond : Nat
  deriving Repr, DecidableEq

/-- Embeds `datetime.combine(current_date, t)`. -/
def Instant.combine (d : Int) (t : Time) : Instant :=
  ⟨d, t.hour, t.minute, t.second, t.microsecond⟩

/-- Embeds `round_dt` (mytime.py lines 117-120) on day-indexed instants:
`dt.replace(minute=(dt.minute // MINUTE_STEP) * MINUTE_STEP, second=0,
microsecond=0)`. -/
def Instant.round_dt (dt : Instant) : Instant :=
  { dt with minute := dt.minute / MINUTE_STEP * MINUTE_STEP, second := 0, microsecond := 0 }

/-- Total microseconds; realises the comparison order of naive datetimes. -/
def Instant.toUsec (dt : Instant) : Int :=
  (((dt.day * 24 + (dt.hour : Int)) * 60 + (dt.minute : Int)) * 60 + (dt.second : Int)) * 1000000
    + (dt.microsecond : Int)

/-- Embeds `dt + timedelta(minutes=k)`: normalised addition of whole minutes. -/
def Instant.addMinutes (dt : Instant) (k : Int) : Instant :=
  let m : Int := dt.day * 1440 + (dt.hour : Int) * 60 + (dt.minute : Int) + k
  ⟨m.fdiv 1440, ((m % 1440) / 60).toNat, ((m % 1440) % 60).toNat, dt.second, dt.microsecond⟩

/-! ## Drag commit (DayView.on_release, mytime.py lines 1231-1239, and
WeekView.on_release, lines 1601-1622)

The view state entering the commit is the released shape's top/bottom pixel
coordinates `y1`, `y2` and the day the event lands on (`current_date` for the
day view; `monday + timedelta(days=target_day)` for the week view, where
`target_day` is the snapped column).  The commit converts both coordinates
through `y_to_time`, rounds with `round_dt`, and enforces the minimum
duration before persisting. -/

def commit_times (d : Int) (y1 y2 : Int) : Instant × Instant :=
  let start_dt := (Instant.combine d (y_to_time y1)).round_dt
  let end_dt := (Instant.combine d (y_to_time y2)).round_dt
  if end_dt.toUsec ≤ start_dt.toUsec then
    (start_dt, start_dt.addMinutes (MINUTE_STEP : Int))
  else
    (start_dt, end_dt)

/-- Embeds `DayView.on_release`: persisted start/end for the day view. -/
def DayView.on_release_times (current_date : Int) (y1 y2 : Int) : Instant × Instant :=
  commit_times current_date y1 y2

/-- Embeds `WeekView.on_release`: persisted start/end for the week view; `new_date =
monday + timedelta(days=target_day)` with `target_day` the snapped column. -/
def WeekView.on_release_times (monday target_day : Int) (y1 y2 : Int) : Instant × Instant :=
  commit_times (monday + target_day) y1 y2

/-- Embeds `DayView.on_drag` in resize mode (mytime.py lines 1226-1229): the shape's
new top/bottom; the top edge `y1` is left untouched and only the bottom is
reassigned. -/
def DayView.on_drag_resize (y1 canvas_y canvas_height : Int) : Int × Int :=
  (y1, clamp canvas_y (y1 + (EVENT_MIN_HEIGHT : Int)) canvas_height)

/-! ## Calendar-structured naive datetimes (for `round_dt` and the ICS codec) -/

structure PyDateTime where
  year : Nat
  month : Nat
  day : Nat
  hour : Nat
  minute : Nat
  second : Nat
  microsecond : Nat
  deriving Repr, DecidableEq

/-- Embeds `round_dt` (mytime.py lines 117-120):
`dt.replace(minute=(dt.minute // MINUTE_STEP) * MINUTE_STEP, second=0,
microsecond=0)`. -/
def round_dt (dt : PyDateTime) : PyDateTime :=
  { dt with minute := dt.minute / MINUTE_STEP * MINUTE_STEP, second := 0, microsecond := 0 }

/-! ## Arithmetic helper lemmas -/

theorem Instant.toUsec_addMinutes (dt : Instant) (k : Int) :
    (dt.addMinutes k).toUsec = dt.toUsec + k * 60000000 := by
  simp only [Instant.addMinutes, Instant.toUsec]
  rw [Int.fdiv_eq_ediv _ (by norm_num)]
  omega

theorem time_to_y_eval (t : Time) :
    time_to_y t = (((t.hour * 60 + t.minute) / 15 : Nat) : Int) * 28 := by
  simp only [time_to_y, HOUR_START, MINUTE_STEP, ROW_HEIGHT]
  rw [Int.fdiv_eq_ediv _ (by norm_num)]
  omega

/-! ## C1: drag commit always persists `end > start` -/

theorem commit_times_min_duration (d y1 y2 : Int) :
    (commit_times d y1 y2).1.toUsec < (commit_times d y1 y2).2.toUsec ∧
    ((Instant.combine d (y_to_time y2)).round_dt.toUsec
        ≤ (Instant.combine d (y_to_time y1)).round_dt.toUsec →
      (commit_times d y1 y2).2
        = (commit_times d y1 y2).1.addMinutes (MINUTE_STEP : Int)) := by
  unfold commit_times
  by_cases h : (Instant.combine d (y_to_time y2)).round_dt.toUsec
      ≤ (Instant.combine d (y_to_time y1)).round_dt.toUsec
  · rw [if_pos h]
    dsimp only
    refine ⟨?_, fun _ => rfl⟩
    rw [Instant.toUsec_addMinutes]
    simp only [MINUTE_STEP]
    omega
  · rw [if_neg h]
    dsimp only
    exact ⟨by omega, fun hc => absurd hc h⟩

/-- C1: for every drag commit (pointer-up ending a move or resize, in the day
view and the week view alike), the persisted event satisfies `end > start`;
the final pixel top/bottom are converted via `y_to_time` and rounded with
`round_dt`, and whenever the rounded end is ≤ the rounded start the persisted
end is exactly the persisted start plus `MINUTE_STEP` minutes. -/
theorem drag_commit_end_gt_start (cd monday target_day y1 y2 : Int) :
    ((DayView.on_release_times cd y1 y2).1.toUsec
        < (DayView.on_release_times cd y1 y2).2.toUsec) ∧
    ((Instant.combine cd (y_to_time y2)).round_dt.toUsec
        ≤ (Instant.combine cd (y_to_time y1)).round_dt.toUsec →
      (DayView.on_release_times cd y1 y2).2
        = (DayView.on_release_times cd y1 y2).1.addMinutes (MINUTE_STEP : Int)) ∧
    ((WeekView.on_release_times monday target_day y1 y2).1.toUsec
        < (WeekView.on_release_times monday target_day y1 y2).2.toUsec) ∧
    ((Instant.combine (monday + target_day) (y_to_time y2)).round_dt.toUsec
        ≤ (Instant.combine (monday + target_day) (y_to_time y1)).round_dt.toUsec →
      (WeekView.on_release_times monday target_day y1 y2).2
        = (WeekView.on_release_times monday target_day y1 y2).1.addMinutes (MINUTE_STEP : Int)) := by
  refine ⟨?_, ?_, ?_, ?_⟩
  · exact (commit_times_min_duration cd y1 y2).1
  · exact (commit_times_min_duration cd y1 y2).2
  · exact (commit_times_min_duration (monday + target_day) y1 y2).1
  · exact (commit_times_min_duration (monday + target_day) y1 y2).2

/-- C1 witness: concrete commit at `y1 = y2 = 0` (a collapsed interval); the
rounded end equals the rounded start, and the persisted end is start plus one
step. -/
theorem drag_commit_end_gt_start_witness :
    ((DayView.on_release_times 0 0 0).1.toUsec < (DayView.on_release_times 0 0 0).2.toUsec) ∧
    (DayView.on_release_times 0 0 0).2
      = (DayView.on_release_times 0 0 0).1.addMinutes (MINUTE_STEP : Int) :=
  ⟨(drag_commit_end_gt_start 0 0 0 0 0).1,
   (drag_commit_end_gt_start 0 0 0 0 0).2.1 (by decide)⟩

/-! ## C2: grid mapping is monotone and quantizes down to a step boundary -/

/-- C2: for wall-clock times in the grid span, `time_to_y` is monotone
non-decreasing, and `y_to_time (time_to_y t)` lands on a step boundary
(minute a multiple of `MINUTE_STEP`, zero seconds) that is ≤ `t`. -/
theorem time_grid_monotone_quantize (t t₁ t₂ : Time)
    (ht : t.hour < HOUR_END ∧ t.minute < 60 ∧ t.second < 60 ∧ t.microsecond < 1000000)
    (ht₁ : t₁.hour < HOUR_END ∧ t₁.minute < 60 ∧ t₁.second < 60 ∧ t₁.microsecond < 1000000)
    (ht₂ : t₂.hour < HOUR_END ∧ t₂.minute < 60 ∧ t₂.second < 60 ∧ t₂.microsecond < 1000000) :
    (t₁.toUsec ≤ t₂.toUsec → time_to_y t₁ ≤ time_to_y t₂) ∧
    (y_to_time (time_to_y t)).minute % MINUTE_STEP = 0 ∧
    (y_to_time (time_to_y t)).second = 0 ∧
    (y_to_time (time_to_y t)).toUsec ≤ t.toUsec := by
  obtain ⟨hh, hm, hs, hu⟩ := ht
  obtain ⟨hh₁, hm₁, hs₁, hu₁⟩ := ht₁
  obtain ⟨hh₂, hm₂, hs₂, hu₂⟩ := ht₂
  simp only [HOUR_END] at hh hh₁ hh₂
  refine ⟨?_, ?_, ?_, ?_⟩
  · intro hle
    rw [time_to_y_eval, time_to_y_eval]
    simp only [Time.toUsec] at hle
    omega
  · rw [time_to_y_eval]
    simp only [y_to_time, HOUR_START, MINUTE_STEP, ROW_HEIGHT]
    rw [Int.fdiv_eq_ediv _ (by norm_num)]
    omega
  · rw [time_to_y_eval]
    simp only [y_to_time, HOUR_START, MINUTE_STEP, ROW_HEIGHT]
  · rw [time_to_y_eval]
    simp only [y_to_time, HOUR_START, MINUTE_STEP, ROW_HEIGHT, Time.toUsec]
    rw [Int.fdiv_eq_ediv _ (by norm_num)]
    omega

/-- C2 witness at `t = t₁ = 09:07:30`, `t₂ = 10:00:00`. -/
theorem time_grid_monotone_quantize_witness :
    ((9:Nat) < HOUR_END ∧ (7:Nat) < 60 ∧ (30:Nat) < 60 ∧ (0:Nat) < 1000000) ∧
    (((⟨9, 7, 30, 0⟩ : Time).toUsec ≤ (⟨10, 0, 0, 0⟩ : Time).toUsec →
        time_to_y ⟨9, 7, 30, 0⟩ ≤ time_to_y ⟨10, 0, 0, 0⟩) ∧
      (y_to_time (time_to_y ⟨9, 7, 30, 0⟩)).minute % MINUTE_STEP = 0 ∧
      (y_to_time (time_to_y ⟨9, 7, 30, 0⟩)).second = 0 ∧
      (y_to_time (time_to_y ⟨9, 7, 30, 0⟩)).toUsec ≤ (⟨9, 7, 30, 0⟩ : Time).toUsec) :=
  ⟨by decide,
   time_grid_monotone_quantize ⟨9, 7, 30, 0⟩ ⟨9, 7, 30, 0⟩ ⟨10, 0, 0, 0⟩
     (by decide) (by decide) (by decide)⟩

/-! ## C7: resize drag moves only the bottom edge, clamped -/

/-- C7: during a resize drag the top edge is unchanged and the new bottom is
`clamp(pointerY, top + EVENT_MIN_HEIGHT, trackHeight)`: never below
`top + EVENT_MIN_HEIGHT`, never beyond the track height, and a pointer above
`top + EVENT_MIN_HEIGHT` pins the bottom exactly there. -/
theorem resize_clamps_bottom (y1 cy H : Int) (h : y1 + (EVENT_MIN_HEIGHT : Int) ≤ H) :
    (DayView.on_drag_resize y1 cy H).1 = y1 ∧
    (DayView.on_drag_resize y1 cy H).2 = clamp cy (y1 + (EVENT_MIN_HEIGHT : Int)) H ∧
    y1 + (EVENT_MIN_HEIGHT : Int) ≤ (DayView.on_drag_resize y1 cy H).2 ∧
    (DayView.on_drag_resize y1 cy H).2 ≤ H ∧
    (cy < y1 + (EVENT_MIN_HEIGHT : Int) →
      (DayView.on_drag_resize y1 cy H).2 = y1 + (EVENT_MIN_HEIGHT : Int)) := by
  refine ⟨rfl, rfl, ?_, ?_, ?_⟩ <;>
    · simp only [DayView.on_drag_resize, clamp, EVENT_MIN_HEIGHT, max_def, min_def] at h ⊢
      split_ifs <;> omega

/-- C7 witness: a release at `pointerY = -5` above `top + EVENT_MIN_HEIGHT`. -/
theorem resize_clamps_bottom_witness :
    (0:Int) + (EVENT_MIN_HEIGHT : Int) ≤ 100 ∧
    (DayView.on_drag_resize 0 (-5) 100).2 = (0:Int) + (EVENT_MIN_HEIGHT : Int) :=
  ⟨by decide, (resize_clamps_bottom 0 (-5) 100 (by decide)).2.2.2.2 (by decide)⟩

/-! ## C8: `round_dt` is an idempotent floor to the step -/

/-- C8: `round_dt` is idempotent, zeroes the seconds and microseconds, floors
the minute to the nearest lower multiple of `MINUTE_STEP`, and leaves the
date and hour unchanged. -/
theorem round_dt_idempotent_floor (x : PyDateTime) :
    round_dt (round_dt x) = round_dt x ∧
    (round_dt x).second = 0 ∧ (round_dt x).microsecond = 0 ∧
    (round_dt x).year = x.year ∧ (round_dt x).month = x.month ∧
    (round_dt x).day = x.day ∧ (round_dt x).hour = x.hour ∧
    (round_dt x).minute % MINUTE_STEP = 0 ∧
    (round_dt x).minute ≤ x.minute ∧ x.minute < (round_dt x).minute + MINUTE_STEP := by
  have h15 : x.minute / MINUTE_STEP * MINUTE_STEP / MINUTE_STEP = x.minute / MINUTE_STEP := by
    simp only [MINUTE_STEP]; omega
  refine ⟨?_, rfl, rfl, rfl, rfl, rfl, rfl, ?_, ?_, ?_⟩
  · unfold round_dt
    dsimp only
    rw [h15]
  · show x.minute / MINUTE_STEP * MINUTE_STEP % MINUTE_STEP = 0
    simp only [MINUTE_STEP]; omega
  · show x.minute / MINUTE_STEP * MINUTE_STEP ≤ x.minute
    simp only [MINUTE_STEP]; omega
  · show x.minute < x.minute / MINUTE_STEP * MINUTE_STEP + MINUTE_STEP
    simp only [MINUTE_STEP]; omega

/-! ## Records

Python strings are embedded as lists of characters. -/

abbrev PyStr := List Char

/-- A row of the `tasks` table (joined with the project name where the task
list needs it; see `TaskRow` below). -/
structure TaskRec where
  id : Nat
  title : PyStr
  duration_minutes : Nat
  notes : PyStr
  recurrence : Option PyStr
  is_template : Bool
  project_id : Option Nat
  priority : PyStr
  parent_id : Option Nat
  is_done : Bool
  deriving Repr, DecidableEq

/-- A row inserted into `events` by `_create_series`; `start_dt`/`end_dt` are
absolute minutes (naive-datetime arithmetic with `timedelta` is isomorphic to
arithmetic on absolute minutes). -/
structure SeriesEvent where
  title : PyStr
  task_id : Option Nat
  start_dt : Int
  end_dt : Int
  project_id : Option Nat
  priority : PyStr
  notes : PyStr
  deriving Repr, DecidableEq

/-! ## C4: recurrence expansion (`BaseCalendarView._create_series`,
mytime.py lines 920-935) -/

/-- The insertion loop of `_create_series`: `count` sequential inserts,
advancing `start` by `delta` after each. -/
def series_insert_loop (task : TaskRec) (dur delta : Int) : Nat → Int → List SeriesEvent
  | 0, _ => []
  | n + 1, start =>
      { title := task.title, task_id := some task.id,
        start_dt := start, end_dt := start + dur,
        project_id := task.project_id, priority := task.priority, notes := task.notes }
        :: series_insert_loop task dur delta n (start + delta)

/-- Embeds `_create_series`: the rows inserted for a recurring task.  `dailySpan` and
`weeklySpan` are the current values of the module globals
`DEFAULT_DAILY_SPAN_DAYS` / `DEFAULT_WEEKLY_SPAN_WEEKS` (mutable via the
settings dialog); `confirm` is the user's answer to the `askyesno` prompt,
shown before any insert. -/
def create_series (dailySpan weeklySpan : Nat) (task : TaskRec) (first_start : Int)
    (confirm : Bool) : List SeriesEvent :=
  let dur : Int := (task.duration_minutes : Int)
  let cd : Nat × Int :=
    if task.recurrence = some "DAILY".data then (dailySpan, 1440) else (weeklySpan, 10080)
  if confirm then series_insert_loop task dur cd.2 cd.1 first_start else []

theorem series_insert_loop_length (task : TaskRec) (dur delta : Int) :
    ∀ (n : Nat) (start : Int), (series_insert_loop task dur delta n start).length = n := by
  intro n
  induction n with
  | zero => intro start; rfl
  | succ n ih => intro start; simp [series_insert_loop, ih]

theorem series_insert_loop_get? (task : TaskRec) (dur delta : Int) :
    ∀ (n : Nat) (start : Int) (k : Nat), k < n →
      (series_insert_loop task dur delta n start).get? k =
        some { title := task.title, task_id := some task.id,
               start_dt := start + k * delta, end_dt := start + k * delta + dur,
               project_id := task.project_id, priority := task.priority,
               notes := task.notes } := by
  intro n
  induction n with
  | zero => intro start k hk; omega
  | succ n ih =>
      intro start k hk
      match k with
      | 0 => simp [series_insert_loop]
      | k + 1 =>
          have harith : start + delta + (k : Int) * delta = start + ((k : Int) + 1) * delta := by
            ring
          have := ih (start + delta) k (by omega)
          simp only [series_insert_loop, List.get?]
          rw [this]
          push_cast
          rw [harith]

/-- Concrete daily task used by counterexamples and witnesses. -/
def dailyTask : TaskRec :=
  { id := 7, title := "Standup".data, duration_minutes := 30, notes := "daily sync".data,
    recurrence := some "DAILY".data, is_template := false, project_id := some 2,
    priority := "Normal".data, parent_id := none, is_done := false }

/-- C4 counterexample: the claim calls the inserted occurrences "standalone"
events, but every row inserted by `_create_series` carries the originating
task's id in `task_id` (mytime.py line 933 binds `task["id"]`), so none of
them is standalone in the sense the spec itself uses for ICS import ("no
task link"). -/
theorem create_series_not_standalone :
    ((create_series DEFAULT_DAILY_SPAN_DAYS DEFAULT_WEEKLY_SPAN_WEEKS dailyTask 540 true).all
        (fun e => e.task_id == none)) = false := by decide

/-- C4 (amended): confirming series creation for a Daily (resp. Weekly) task
at anchor `s` inserts exactly `dailySpan` (resp. `weeklySpan`) new
*task-linked* events — spans default to 30 and 8 — with
`start = s + k·1440` minutes (resp. `s + k·7·1440`) for `k = 0..N-1`,
`end = start + duration`, and title/project/priority/notes copied from the
task at expansion time; declining the confirmation creates zero records. -/
theorem create_series_expansion (dailySpan weeklySpan : Nat) (task : TaskRec) (s : Int) :
    (create_series dailySpan weeklySpan task s false = []) ∧
    (task.recurrence = some "DAILY".data →
      (create_series dailySpan weeklySpan task s true).length = dailySpan ∧
      ∀ k : Nat, k < dailySpan →
        (create_series dailySpan weeklySpan task s true).get? k =
          some { title := task.title, task_id := some task.id,
                 start_dt := s + k * 1440,
                 end_dt := s + k * 1440 + (task.duration_minutes : Int),
                 project_id := task.project_id, priority := task.priority,
                 notes := task.notes }) ∧
    (task.recurrence = some "WEEKLY".data →
      (create_series dailySpan weeklySpan task s true).length = weeklySpan ∧
      ∀ k : Nat, k < weeklySpan →
        (create_series dailySpan weeklySpan task s true).get? k =
          some { title := task.title, task_id := some task.id,
                 start_dt := s + k * (7 * 1440),
                 end_dt := s + k * (7 * 1440) + (task.duration_minutes : Int),
                 project_id := task.project_id, priority := task.priority,
                 notes := task.notes }) := by
  refine ⟨rfl, fun hd => ?_, fun hw => ?_⟩
  · have hif : (if task.recurrence = some "DAILY".data then (dailySpan, (1440:Int))
        else (weeklySpan, 10080)) = (dailySpan, 1440) := if_pos hd
    constructor
    · simp only [create_series, hif, if_pos]
      exact series_insert_loop_length task _ _ dailySpan s
    · intro k hk
      simp only [create_series, hif, if_pos]
      exact series_insert_loop_get? task _ _ dailySpan s k hk
  · have hw' : task.recurrence ≠ some "DAILY".data := by
      rw [hw]; intro hcontra
      have := Option.some.inj hcontra
      exact absurd (congrArg List.length this) (by decide)
    have hif : (if task.recurrence = some "DAILY".data then (dailySpan, (1440:Int))
        else (weeklySpan, 10080)) = (weeklySpan, 10080) := if_neg hw'
    constructor
    · simp only [create_series, hif, if_pos]
      exact series_insert_loop_length task _ _ weeklySpan s
    · intro k hk
      simp only [create_series, hif, if_pos]
      have := series_insert_loop_get? task (task.duration_minutes : Int) 10080 weeklySpan s k hk
      rw [this]
      norm_num

/-- C4 witness: a Daily expansion with span 3 at anchor `2024-01-01T09:00`
(minute 540 of the anchor day) yields exactly 3 occurrences, the second
starting one day later. -/
theorem create_series_expansion_witness :
    dailyTask.recurrence = some "DAILY".data ∧
    (create_series 3 8 dailyTask 540 true).length = 3 ∧
    (create_series 3 8 dailyTask 540 true).get? 1 =
      some { title := dailyTask.title, task_id := some dailyTask.id,
             start_dt := 540 + 1 * 1440,
             end_dt := 540 + 1 * 1440 + (dailyTask.duration_minutes : Int),
             project_id := dailyTask.project_id, priority := dailyTask.priority,
             notes := dailyTask.notes } :=
  ⟨by decide,
   ((create_series_expansion 3 8 dailyTask 540).2.1 (by decide)).1,
   ((create_series_expansion 3 8 dailyTask 540).2.1 (by decide)).2 1 (by decide)⟩

/-! ## C9: deleting a task touches only that task's row
(`TasksPanel.delete`, mytime.py lines 682-687) -/

/-- The two persisted tables the deletion can see; the event row type is
abstract, the frame property holds whatever events contain. -/
structure PlannerDb (ε : Type) where
  tasks : List TaskRec
  events : List ε

/-- Embeds `TasksPanel.delete`: executes `DELETE FROM tasks WHERE id=?` and nothing
else.  sqlite runs with `foreign_keys` OFF (the default; the source never
issues `PRAGMA foreign_keys=ON`), so the schema's `ON DELETE CASCADE` on
`tasks.parent_id` and `ON DELETE SET NULL` on `events.task_id` do not fire:
the statement removes exactly the rows of `tasks` matching the id. -/
def TasksPanel.delete {ε : Type} (db : PlannerDb ε) (tid : Nat) : PlannerDb ε :=
  { db with tasks := db.tasks.filter (fun t => t.id != tid) }

/-- C9: deleting a task removes only that task's row from the tasks table and
leaves the events table entirely unchanged — no event row is created, deleted
or modified, including events linked to the deleted task. -/
theorem delete_task_frame {ε : Type} (db : PlannerDb ε) (tid : Nat) :
    (TasksPanel.delete db tid).events = db.events ∧
    ∀ t : TaskRec, t ∈ (TasksPanel.delete db tid).tasks ↔ t ∈ db.tasks ∧ t.id ≠ tid := by
  refine ⟨rfl, fun t => ?_⟩
  simp [TasksPanel.delete, List.mem_filter, bne_iff_ne]

/-! ## Python string helpers -/

/-- Embeds `str.strip()`: whitespace removed from both ends. -/
def pyStrip (cs : PyStr) : PyStr :=
  ((cs.dropWhile Char.isWhitespace).reverse.dropWhile Char.isWhitespace).reverse

/-- Embeds `s.split(sep, 1)` when `sep` occurs (`none` when `sep ∉ s`, which is also
the `sep in s` test). -/
def splitFirst (sep : Char) : PyStr → Option (PyStr × PyStr)
  | [] => none
  | c :: rest =>
      if c = sep then some ([], rest)
      else
        match splitFirst sep rest with
        | some (l, r) => some (c :: l, r)
        | none => none

/-- Embeds `s.endswith("Z")`: the last character is `'Z'`. -/
def endsWithZ (cs : PyStr) : Bool := cs.getLast? == some 'Z'

/-! ## ICS datetime decoding (`dt_from_ics`, mytime.py lines 124-138)

`datetime.strptime` is embedded for zero-padded fixed-width fields, the form
the ICS formats `%Y%m%dT%H%M%S(Z)`, `%Y%m%dT%H%M` and `%Y%m%d` denote
(CPython additionally tolerates unpadded 1-digit fields via regex
backtracking; padded inputs parse identically).  A parse failure is a raised
`ValueError`, i.e. `none`. -/

def readDigit (c : Char) : Option Nat :=
  if c.isDigit then some (c.toNat - 48) else none

def read2 : PyStr → Option (Nat × PyStr)
  | c1 :: c2 :: rest =>
      match readDigit c1, readDigit c2 with
      | some a, some b => some (a * 10 + b, rest)
      | _, _ => none
  | _ => none

def read4 (cs : PyStr) : Option (Nat × PyStr) :=
  match read2 cs with
  | some (a, cs1) =>
      match read2 cs1 with
      | some (b, cs2) => some (a * 100 + b, cs2)
      | none => none
  | none => none

def expectChar (c : Char) : PyStr → Option PyStr
  | [] => none
  | x :: rest => if x = c then some rest else none

def isLeapYear (y : Nat) : Bool :=
  (y % 4 == 0 && y % 100 != 0) || y % 400 == 0

def daysInMonth (y m : Nat) : Nat :=
  if m = 2 then (if isLeapYear y then 29 else 28)
  else if m = 4 ∨ m = 6 ∨ m = 9 ∨ m = 11 then 30
  else 31

/-- Embeds `%Y%m%d` with `datetime`'s range validation (year ≥ 1, calendar day). -/
def readDate (cs : PyStr) : Option (Nat × Nat × Nat × PyStr) :=
  match read4 cs with
  | some (y, cs1) =>
      match read2 cs1 with
      | some (mo, cs2) =>
          match read2 cs2 with
          | some (d, cs3) =>
              if 1 ≤ y ∧ 1 ≤ mo ∧ mo ≤ 12 ∧ 1 ≤ d ∧ d ≤ daysInMonth y mo then
                some (y, mo, d, cs3)
              else none
          | none => none
      | none => none
  | none => none

/-- Embeds `%H%M%S` with range validation. -/
def readHms (cs : PyStr) : Option (Nat × Nat × Nat × PyStr) :=
  match read2 cs with
  | some (h, cs1) =>
      match read2 cs1 with
      | some (mi, cs2) =>
          match read2 cs2 with
          | some (s, cs3) =>
              if h ≤ 23 ∧ mi ≤ 59 ∧ s ≤ 59 then some (h, mi, s, cs3) else none
          | none => none
      | none => none
  | none => none

/-- Embeds `%H%M` with range validation. -/
def readHm (cs : PyStr) : Option (Nat × Nat × PyStr) :=
  match read2 cs with
  | some (h, cs1) =>
      match read2 cs1 with
      | some (mi, cs2) => if h ≤ 23 ∧ mi ≤ 59 then some (h, mi, cs2) else none
      | none => none
  | none => none

/-- Embeds `strptime(s, "%Y%m%dT%H%M%SZ")`. -/
def parse_utc (cs : PyStr) : Option PyDateTime :=
  match readDate cs with
  | some (y, mo, d, cs1) =>
      match expectChar 'T' cs1 with
      | some cs2 =>
          match readHms cs2 with
          | some (h, mi, s, cs3) =>
              if cs3 = ['Z'] then some ⟨y, mo, d, h, mi, s, 0⟩ else none
          | none => none
      | none => none
  | none => none

/-- Embeds `strptime(s, "%Y%m%dT%H%M%S")`. -/
def parse_local_seconds (cs : PyStr) : Option PyDateTime :=
  match readDate cs with
  | some (y, mo, d, cs1) =>
      match expectChar 'T' cs1 with
      | some cs2 =>
          match readHms cs2 with
          | some (h, mi, s, cs3) =>
              if cs3 = [] then some ⟨y, mo, d, h, mi, s, 0⟩ else none
          | none => none
      | none => none
  | none => none

/-- Embeds `strptime(s, "%Y%m%dT%H%M")`. -/
def parse_local_minutes (cs : PyStr) : Option PyDateTime :=
  match readDate cs with
  | some (y, mo, d, cs1) =>
      match expectChar 'T' cs1 with
      | some cs2 =>
          match readHm cs2 with
          | some (h, mi, cs3) =>
              if cs3 = [] then some ⟨y, mo, d, h, mi, 0, 0⟩ else none
          | none => none
      | none => none
  | none => none

/-- Embeds `strptime(s, "%Y%m%d")` combined with midnight. -/
def parse_date_only (cs : PyStr) : Option PyDateTime :=
  match readDate cs with
  | some (y, mo, d, cs1) => if cs1 = [] then some ⟨y, mo, d, 0, 0, 0, 0⟩ else none
  | none => none

/-- Embeds `dt_from_ics` (mytime.py lines 124-138): strip, then if the string ends
with `Z` parse only `%Y%m%dT%H%M%SZ` (a failure raises with no fallback);
otherwise try `%Y%m%dT%H%M%S`, `%Y%m%dT%H%M`, then `%Y%m%d` (midnight), and
raise when none fits. -/
def dt_from_ics (s0 : PyStr) : Option PyDateTime :=
  let s := pyStrip s0
  if endsWithZ s then parse_utc s
  else
    match parse_local_seconds s with
    | some dt => some dt
    | none =>
        match parse_local_minutes s with
        | some dt => some dt
        | none => parse_date_only s

/-! ## ICS encoding (`export_ics`, mytime.py lines 1626-1636) -/

/-- Embeds `"%02d"`. -/
def pad2 (n : Nat) : PyStr := [Nat.digitChar (n / 10), Nat.digitChar (n % 10)]

/-- Embeds `"%04d"` (years 1000-9999 in practice). -/
def pad4 (n : Nat) : PyStr := pad2 (n / 100) ++ pad2 (n % 100)

/-- Embeds `dt.strftime("%Y%m%dT%H%M%S")` — the `fmt` helper inside `export_ics`. -/
def ics_fmt (dt : PyDateTime) : PyStr :=
  pad4 dt.year ++ pad2 dt.month ++ pad2 dt.day ++ ['T']
    ++ pad2 dt.hour ++ pad2 dt.minute ++ pad2 dt.second

/-- An `events` row as `export_ics` reads it. -/
structure EventExportRow where
  id : Nat
  title : PyStr
  start_dt : PyDateTime
  end_dt : PyDateTime
  notes : PyStr
  deriving Repr, DecidableEq

/-- Embeds `export_ics`: the lines written to the file (each then terminated with
CRLF, which `splitlines` strips again on import). -/
def export_ics_lines (rows : List EventExportRow) : List PyStr :=
  ["BEGIN:VCALENDAR".data, "VERSION:2.0".data, "PRODID:-//MyTime-Python//EN".data]
    ++ rows.flatMap (fun r =>
        ["BEGIN:VEVENT".data,
         "SUMMARY:".data ++ r.title,
         "DTSTART:".data ++ ics_fmt r.start_dt,
         "DTEND:".data ++ ics_fmt r.end_dt,
         "UID:".data ++ Nat.toDigits 10 r.id ++ "@mytime-python".data]
          ++ (if r.notes = [] then [] else ["DESCRIPTION:".data ++ r.notes])
          ++ ["END:VEVENT".data])
    ++ ["END:VCALENDAR".data]

/-! ## ICS decoding (`import_ics`, mytime.py lines 1640-1663) -/

/-- An accumulated VEVENT block: the `cur` dict, newest assignment first. -/
abbrev IcsBlock := List (PyStr × PyStr)

/-- Embeds `cur[k]` (last assignment wins). -/
def blockGet (b : IcsBlock) (k : PyStr) : Option PyStr :=
  (b.find? (fun p => p.1 == k)).map (fun p => p.2)

/-- The accumulation done for a non-BEGIN/END line: if the line contains a
colon, split at the first colon, truncate the key at the first semicolon,
and assign. -/
def ics_line_step (cur : IcsBlock) (line : PyStr) : IcsBlock :=
  match splitFirst ':' line with
  | some (k, v) => (k.takeWhile (fun c => c != ';'), v) :: cur
  | none => cur

/-- Embeds `{"SUMMARY","DTSTART","DTEND"}.issubset(cur.keys())`. -/
def icsHasRequired (cur : IcsBlock) : Bool :=
  (blockGet cur "SUMMARY".data).isSome && (blockGet cur "DTSTART".data).isSome
    && (blockGet cur "DTEND".data).isSome

/-- The line scan of `import_ics`: accepted blocks accumulate in order; a
block is appended at `END:VEVENT` only when all three required keys are
present, otherwise it is discarded silently. -/
def import_fold (accepted : List IcsBlock) (cur : IcsBlock) : List PyStr → List IcsBlock
  | [] => accepted
  | line :: rest =>
      let l := pyStrip line
      if l = "BEGIN:VEVENT".data then import_fold accepted [] rest
      else if l = "END:VEVENT".data then
        if icsHasRequired cur then import_fold (accepted ++ [cur]) [] rest
        else import_fold accepted [] rest
      else import_fold accepted (ics_line_step cur l) rest

/-- The accepted VEVENT blocks of an import. -/
def import_ics_events (lines : List PyStr) : List IcsBlock :=
  import_fold [] [] lines

/-- Claim-side companion of `import_fold` for the refinement statement: the
same scan, but collecting *every* block that reaches `END:VEVENT`,
accepted or not. -/
def ics_ended_blocks (acc : List IcsBlock) (cur : IcsBlock) : List PyStr → List IcsBlock
  | [] => acc
  | line :: rest =>
      let l := pyStrip line
      if l = "BEGIN:VEVENT".data then ics_ended_blocks acc [] rest
      else if l = "END:VEVENT".data then ics_ended_blocks (acc ++ [cur]) [] rest
      else ics_ended_blocks acc (ics_line_step cur l) rest

/-- An `events` row inserted by `import_ics`. -/
structure IcsEvent where
  title : PyStr
  task_id : Option Nat
  start_dt : PyDateTime
  end_dt : PyDateTime
  project_id : Option Nat
  priority : PyStr
  notes : PyStr
  deriving Repr, DecidableEq

/-- The insertion step for one accepted block: datetimes that fail to parse
raise inside the `try` and the block is skipped with a diagnostic
(`none`); otherwise the row is inserted standalone (`task_id=None`,
`project_id=None`, priority `'Normal'`). -/
def ics_block_insert (e : IcsBlock) : Option IcsEvent :=
  match blockGet e "DTSTART".data, blockGet e "DTEND".data with
  | some ds, some de =>
      match dt_from_ics ds, dt_from_ics de with
      | some s, some en =>
          some { title := (blockGet e "SUMMARY".data).getD "(No title)".data,
                 task_id := none, start_dt := s, end_dt := en,
                 project_id := none, priority := "Normal".data,
                 notes := (blockGet e "DESCRIPTION".data).getD [] }
      | _, _ => none
  | _, _ => none

/-- Embeds `import_ics`: the rows inserted into `events`, in order. -/
def import_ics_records (lines : List PyStr) : List IcsEvent :=
  (import_ics_events lines).filterMap ics_block_insert

/-! ## C6: ICS round-trip on a concrete event -/

/-- The stored event of C6: `{title:"Standup", start:2024-03-01T09:00,
end:2024-03-01T09:15}`. -/
def standupRow : EventExportRow :=
  { id := 1, title := "Standup".data, start_dt := ⟨2024, 3, 1, 9, 0, 0, 0⟩,
    end_dt := ⟨2024, 3, 1, 9, 15, 0, 0⟩, notes := [] }

/-- The row `import_ics` inserts for it. -/
def standupRecord : IcsEvent :=
  { title := "Standup".data, task_id := none,
    start_dt := ⟨2024, 3, 1, 9, 0, 0, 0⟩, end_dt := ⟨2024, 3, 1, 9, 15, 0, 0⟩,
    project_id := none, priority := "Normal".data, notes := [] }

/-- C6: encoding the event `{title:"Standup", start:2024-03-01T09:00,
end:2024-03-01T09:15}` with the ICS export and decoding the produced text
yields a record with the same title and the same local wall-clock start and
end instants. -/
theorem ics_roundtrip_standup :
    import_ics_records (export_ics_lines [standupRow]) = [standupRecord] := by decide

/-! ## C5: acceptance and skipping in the ICS decoder -/

theorem ics_ended_blocks_append (lines : List PyStr) :
    ∀ (acc : List IcsBlock) (cur : IcsBlock),
      ics_ended_blocks acc cur lines = acc ++ ics_ended_blocks [] cur lines := by
  induction lines with
  | nil => intro acc cur; simp [ics_ended_blocks]
  | cons line rest ih =>
      intro acc cur
      simp only [ics_ended_blocks, List.nil_append]
      split_ifs
      · exact ih acc []
      · rw [ih (acc ++ [cur]) [], ih [cur] []]
        simp [List.append_assoc]
      · exact ih acc (ics_line_step cur (pyStrip line))

theorem import_fold_eq_filter (lines : List PyStr) :
    ∀ (cur : IcsBlock) (accepted : List IcsBlock),
      import_fold accepted cur lines
        = accepted ++ (ics_ended_blocks [] cur lines).filter icsHasRequired := by
  induction lines with
  | nil => intro cur accepted; simp [import_fold, ics_ended_blocks]
  | cons line rest ih =>
      intro cur accepted
      simp only [import_fold, ics_ended_blocks, List.nil_append]
      split_ifs with h1 h2 h3
      · exact ih [] accepted
      · rw [ih [] (accepted ++ [cur]), ics_ended_blocks_append rest [cur] []]
        simp [List.filter_append, List.filter_cons, h3, List.append_assoc]
      · rw [ih [] accepted, ics_ended_blocks_append rest [cur] []]
        simp [List.filter_append, List.filter_cons, h3]
      · exact ih (ics_line_step cur (pyStrip line)) accepted

theorem ics_block_insert_fields (b : IcsBlock) (e : IcsEvent)
    (h : ics_block_insert b = some e) :
    e.task_id = none ∧ e.project_id = none ∧ e.priority = "Normal".data := by
  unfold ics_block_insert at h
  split at h
  · split at h
    · cases h; exact ⟨rfl, rfl, rfl⟩
    · simp at h
  · simp at h

/-- C5: a VEVENT block is accepted exactly when `SUMMARY`, `DTSTART` and
`DTEND` are all present (keys truncated at the first semicolon; otherwise the
block is discarded silently); an accepted block whose `DTSTART` or `DTEND`
fails all supported formats is skipped while the remaining blocks are still
decoded (`filterMap` never drops later elements); and every inserted row has
no task link, no project link and priority `'Normal'`. -/
theorem ics_decode_accept_iff (lines : List PyStr) :
    import_ics_events lines = (ics_ended_blocks [] [] lines).filter icsHasRequired ∧
    import_ics_records lines
      = ((ics_ended_blocks [] [] lines).filter icsHasRequired).filterMap ics_block_insert ∧
    ∀ e ∈ import_ics_records lines,
      e.task_id = none ∧ e.project_id = none ∧ e.priority = "Normal".data := by
  have h := import_fold_eq_filter lines [] []
  refine ⟨?_, ?_, ?_⟩
  · simpa [import_ics_events] using h
  · simp only [import_ics_records, import_ics_events]
    rw [h]
    simp
  · intro e he
    simp only [import_ics_records, List.mem_filterMap] at he
    obtain ⟨b, _, hb⟩ := he
    exact ics_block_insert_fields b e hb

/-- C5 witness: the concrete Standup export decodes to one inserted row with
`task_id=None`, `project_id=None`, priority `'Normal'`. -/
theorem ics_decode_accept_iff_witness :
    standupRecord ∈ import_ics_records (export_ics_lines [standupRow]) ∧
    (standupRecord.task_id = none ∧ standupRecord.project_id = none ∧
      standupRecord.priority = "Normal".data) :=
  ⟨by decide,
   (ics_decode_accept_iff (export_ics_lines [standupRow])).2.2 standupRecord (by decide)⟩

/-! ## C10: a `Z`-suffixed ICS datetime decodes with no timezone conversion -/

theorem digitChar_eq_star (d : Nat) (h : 16 ≤ d) : Nat.digitChar d = '*' := by
  unfold Nat.digitChar
  repeat rw [if_neg (by omega)]

theorem digitChar_not_whitespace (d : Nat) : (Nat.digitChar d).isWhitespace = false := by
  by_cases h : d < 16
  · interval_cases d <;> decide
  · rw [digitChar_eq_star d (by omega)]; decide

theorem digitChar_ne_Z (d : Nat) : Nat.digitChar d ≠ 'Z' := by
  by_cases h : d < 16
  · interval_cases d <;> decide
  · rw [digitChar_eq_star d (by omega)]; decide

theorem readDigit_digitChar (d : Nat) (h : d < 10) : readDigit (Nat.digitChar d) = some d := by
  interval_cases d <;> decide

theorem read2_pad2 (n : Nat) (h : n < 100) (rest : PyStr) :
    read2 (pad2 n ++ rest) = some (n, rest) := by
  have h1 : n / 10 < 10 := by omega
  have h2 : n % 10 < 10 := by omega
  simp only [pad2, List.cons_append, List.nil_append, read2,
    readDigit_digitChar _ h1, readDigit_digitChar _ h2]
  simp only [Option.some.injEq, Prod.mk.injEq]
  exact ⟨by omega, by trivial⟩

theorem read4_pad4 (n : Nat) (h : n < 10000) (rest : PyStr) :
    read4 (pad4 n ++ rest) = some (n, rest) := by
  have h1 : n / 100 < 100 := by omega
  have h2 : n % 100 < 100 := by omega
  simp only [pad4, List.append_assoc, read4, read2_pad2 _ h1, read2_pad2 _ h2]
  simp only [Option.some.injEq, Prod.mk.injEq]
  exact ⟨by omega, by trivial⟩

theorem daysInMonth_le (y m : Nat) : daysInMonth y m ≤ 31 := by
  unfold daysInMonth
  split_ifs <;> omega

theorem expectChar_self (c : Char) (rest : PyStr) : expectChar c (c :: rest) = some rest := by
  simp [expectChar]

theorem readDate_pad (y mo d : Nat) (hy1 : 1 ≤ y) (hy2 : y ≤ 9999)
    (hmo : 1 ≤ mo ∧ mo ≤ 12) (hd : 1 ≤ d ∧ d ≤ daysInMonth y mo) (rest : PyStr) :
    readDate (pad4 y ++ (pad2 mo ++ (pad2 d ++ rest))) = some (y, mo, d, rest) := by
  have hd100 : d < 100 := by
    have := daysInMonth_le y mo
    omega
  simp only [readDate, read4_pad4 y (by omega) _, read2_pad2 mo (by omega) _,
    read2_pad2 d hd100 _]
  rw [if_pos ⟨hy1, hmo.1, hmo.2, hd.1, hd.2⟩]

theorem readHms_pad (h mi s : Nat) (hh : h ≤ 23) (hmi : mi ≤ 59) (hs : s ≤ 59) (rest : PyStr) :
    readHms (pad2 h ++ (pad2 mi ++ (pad2 s ++ rest))) = some (h, mi, s, rest) := by
  simp only [readHms, read2_pad2 h (by omega) _, read2_pad2 mi (by omega) _,
    read2_pad2 s (by omega) _]
  rw [if_pos ⟨hh, hmi, hs⟩]

theorem readHms_pad_nil (h mi s : Nat) (hh : h ≤ 23) (hmi : mi ≤ 59) (hs : s ≤ 59) :
    readHms (pad2 h ++ (pad2 mi ++ pad2 s)) = some (h, mi, s, []) := by
  have := readHms_pad h mi s hh hmi hs []
  rwa [List.append_nil] at this

theorem dropWhile_eq_self_of_head (p : Char → Bool) (cs : PyStr)
    (h : ∀ c, cs.head? = some c → p c = false) : cs.dropWhile p = cs := by
  cases cs with
  | nil => rfl
  | cons a l => simp [List.dropWhile_cons, h a rfl]

theorem pyStrip_eq_self (cs : PyStr)
    (h1 : ∀ c, cs.head? = some c → c.isWhitespace = false)
    (h2 : ∀ c, cs.getLast? = some c → c.isWhitespace = false) :
    pyStrip cs = cs := by
  unfold pyStrip
  rw [dropWhile_eq_self_of_head _ _ h1]
  rw [dropWhile_eq_self_of_head _ _ (fun c hc => h2 c (by rwa [List.head?_reverse] at hc))]
  exact List.reverse_reverse cs

theorem ics_fmt_head (dt : PyDateTime) :
    (ics_fmt dt).head? = some (Nat.digitChar (dt.year / 100 / 10)) := rfl

theorem ics_fmt_Z_head (dt : PyDateTime) :
    (ics_fmt dt ++ ['Z']).head? = some (Nat.digitChar (dt.year / 100 / 10)) := rfl

theorem ics_fmt_last (dt : PyDateTime) :
    (ics_fmt dt).getLast? = some (Nat.digitChar (dt.second % 10)) := by
  have hsplit : ics_fmt dt
      = (pad4 dt.year ++ pad2 dt.month ++ pad2 dt.day ++ ['T'] ++ pad2 dt.hour
          ++ pad2 dt.minute ++ [Nat.digitChar (dt.second / 10)])
        ++ [Nat.digitChar (dt.second % 10)] := by
    simp [ics_fmt, pad2, pad4, List.append_assoc]
  rw [hsplit, List.getLast?_concat]

theorem endsWithZ_fmt_Z (dt : PyDateTime) : endsWithZ (ics_fmt dt ++ ['Z']) = true := by
  simp [endsWithZ, List.getLast?_concat]

theorem endsWithZ_fmt (dt : PyDateTime) : endsWithZ (ics_fmt dt) = false := by
  simp [endsWithZ, ics_fmt_last, digitChar_ne_Z]

theorem pyStrip_fmt_Z (dt : PyDateTime) :
    pyStrip (ics_fmt dt ++ ['Z']) = ics_fmt dt ++ ['Z'] := by
  apply pyStrip_eq_self
  · intro c hc
    rw [ics_fmt_Z_head] at hc
    cases hc
    exact digitChar_not_whitespace _
  · intro c hc
    rw [List.getLast?_concat] at hc
    cases hc
    decide

theorem pyStrip_fmt (dt : PyDateTime) : pyStrip (ics_fmt dt) = ics_fmt dt := by
  apply pyStrip_eq_self
  · intro c hc
    rw [ics_fmt_head] at hc
    cases hc
    exact digitChar_not_whitespace _
  · intro c hc
    rw [ics_fmt_last] at hc
    cases hc
    exact digitChar_not_whitespace _

/-- C10 (implicit): `dt_from_ics` on a `YYYYMMDDTHHMMSSZ` string returns the
naive datetime spelled by the digits — no timezone conversion — and the
result is identical to decoding the same string without the trailing `Z`. -/
theorem dt_from_ics_utc_naive (dt : PyDateTime)
    (hy1 : 1000 ≤ dt.year) (hy2 : dt.year ≤ 9999)
    (hmo : 1 ≤ dt.month ∧ dt.month ≤ 12)
    (hd : 1 ≤ dt.day ∧ dt.day ≤ daysInMonth dt.year dt.month)
    (hh : dt.hour ≤ 23) (hmi : dt.minute ≤ 59) (hs : dt.second ≤ 59)
    (hus : dt.microsecond = 0) :
    dt_from_ics (ics_fmt dt ++ ['Z']) = some dt ∧
    dt_from_ics (ics_fmt dt) = some dt := by
  obtain ⟨y, mo, d, h, mi, s, us⟩ := dt
  simp only at hy1 hy2 hmo hd hh hmi hs hus
  subst hus
  have hpu : parse_utc (ics_fmt ⟨y, mo, d, h, mi, s, 0⟩ ++ ['Z'])
      = some ⟨y, mo, d, h, mi, s, 0⟩ := by
    simp only [parse_utc, ics_fmt, List.append_assoc, List.cons_append, List.nil_append,
      readDate_pad y mo d (by omega) hy2 hmo hd, expectChar_self,
      readHms_pad h mi s hh hmi hs]
    simp
  have hpls : parse_local_seconds (ics_fmt ⟨y, mo, d, h, mi, s, 0⟩)
      = some ⟨y, mo, d, h, mi, s, 0⟩ := by
    simp only [parse_local_seconds, ics_fmt, List.append_assoc, List.cons_append,
      List.nil_append, readDate_pad y mo d (by omega) hy2 hmo hd, expectChar_self,
      readHms_pad_nil h mi s hh hmi hs]
    simp
  constructor
  · simp [dt_from_ics, pyStrip_fmt_Z, endsWithZ_fmt_Z, hpu]
  · simp [dt_from_ics, pyStrip_fmt, endsWithZ_fmt, hpls]

/-- C10 witness at `20240301T090000Z`. -/
theorem dt_from_ics_utc_naive_witness :
    (1000 ≤ 2024 ∧ (2024:Nat) ≤ 9999 ∧ ((1:Nat) ≤ 3 ∧ (3:Nat) ≤ 12) ∧
      ((1:Nat) ≤ 1 ∧ (1:Nat) ≤ daysInMonth 2024 3) ∧ (9:Nat) ≤ 23 ∧ (0:Nat) ≤ 59 ∧
      (0:Nat) ≤ 59) ∧
    dt_from_ics (ics_fmt ⟨2024, 3, 1, 9, 0, 0, 0⟩ ++ ['Z']) = some ⟨2024, 3, 1, 9, 0, 0, 0⟩ ∧
    dt_from_ics (ics_fmt ⟨2024, 3, 1, 9, 0, 0, 0⟩) = some ⟨2024, 3, 1, 9, 0, 0, 0⟩ :=
  ⟨by decide,
   (dt_from_ics_utc_naive ⟨2024, 3, 1, 9, 0, 0, 0⟩ (by decide) (by decide) (by decide)
      (by decide) (by decide) (by decide) (by decide) rfl).1,
   (dt_from_ics_utc_naive ⟨2024, 3, 1, 9, 0, 0, 0⟩ (by decide) (by decide) (by decide)
      (by decide) (by decide) (by decide) (by decide) rfl).2⟩

/-! ## C3: task-list visibility (`TasksPanel.refresh`, mytime.py lines 489-607)

The refresh runs over the rows of
`SELECT t.*, p.name AS proj FROM tasks t LEFT JOIN projects p ... ORDER BY
t.created_at ASC`; the list below is that result set in that order.  The
events input is the `task_id` column of the `events` table. -/

/-- A joined row as `refresh` sees it. -/
structure TaskRow where
  id : Nat
  title : PyStr
  notes : PyStr
  proj : Option PyStr
  parent_id : Option Nat
  is_done : Bool
  deriving Repr, DecidableEq

/-- Embeds `str.lower()` (ASCII case folding). -/
def pyLower (cs : PyStr) : PyStr := cs.map Char.toLower

/-- Python's `needle in hay` substring test. -/
def containsSub (hay needle : PyStr) : Bool :=
  hay.tails.any (fun t => needle.isPrefixOf t)

/-- Direct match: `filter_term in title.lower() or (notes and filter_term in
notes.lower()) or (proj and filter_term in proj.lower())` — `filter_term` is
already lowercased by the caller; empty notes and a NULL or empty project
name are falsy. -/
def task_matches (filter_term : PyStr) (r : TaskRow) : Bool :=
  containsSub (pyLower r.title) filter_term
    || (!r.notes.isEmpty && containsSub (pyLower r.notes) filter_term)
    || (match r.proj with
        | some p => !p.isEmpty && containsSub (pyLower p) filter_term
        | none => false)

/-- Embeds `get_all_descendants` (recursive walk over the child relation); the fuel
argument makes the recursion total, `tasks.length` suffices on the acyclic
forests the walk is run on. -/
def get_all_descendants (tasks : List TaskRow) : Nat → Nat → List Nat
  | 0, _ => []
  | fuel + 1, tid =>
      (tasks.filter (fun t => t.parent_id == some tid)).flatMap
        (fun child => child.id :: get_all_descendants tasks fuel child.id)

/-- Embeds `tasks_by_id.get(tid, {}).get('parent_id')`. -/
def parent_of (tasks : List TaskRow) (tid : Nat) : Option Nat :=
  match tasks.find? (fun t => t.id == tid) with
  | some t => t.parent_id
  | none => none

/-- The `while parent_id:` ancestor walk, fuelled like the descendant walk. -/
def ancestors_from (tasks : List TaskRow) : Nat → Option Nat → List Nat
  | _, none => []
  | 0, some _ => []
  | fuel + 1, some p => p :: ancestors_from tasks fuel (parent_of tasks p)

def get_all_ancestors (tasks : List TaskRow) (tid : Nat) : List Nat :=
  ancestors_from tasks tasks.length (parent_of tasks tid)

/-- Embeds `ids_to_show`: every direct match plus its ancestors and descendants. -/
def ids_to_show (tasks : List TaskRow) (filter_term : PyStr) : List Nat :=
  (tasks.filter (task_matches filter_term)).flatMap
    (fun r => r.id :: (get_all_ancestors tasks r.id
        ++ get_all_descendants tasks tasks.length r.id))

/-- Embeds `tasks_to_display`: the closure filter, or all tasks on an empty query
(order of `all_tasks` preserved). -/
def tasks_to_display (tasks : List TaskRow) (filter_str : PyStr) : List TaskRow :=
  if filter_str = [] then tasks
  else tasks.filter (fun r => (ids_to_show tasks (pyLower filter_str)).contains r.id)

/-- Membership in the closure set, per row. -/
def in_closure (tasks : List TaskRow) (filter_str : PyStr) (r : TaskRow) : Bool :=
  if filter_str = [] then true
  else (ids_to_show tasks (pyLower filter_str)).contains r.id

/-- Embeds `bool(events_by_task.get(r["id"]))`: the task has ≥ 1 linked event. -/
def is_scheduled (events : List (Option Nat)) (tid : Nat) : Bool :=
  events.contains (some tid)

/-- The sticky-flag exclusion applied to a row during the render walk. -/
def row_excluded (events : List (Option Nat)) (hidden : List PyStr) (r : TaskRow) : Bool :=
  (hidden.contains "Scheduled".data && is_scheduled events r.id)
    || (hidden.contains "Done".data && r.is_done)

/-- One iteration of the render walk: skip on an active sticky flag; insert
at the root when `parent_id` is falsy; with a parent, insert only when the
parent's row already exists in the tree (`self.tree.exists(parent_iid)`),
else skip. -/
def render_step (events : List (Option Nat)) (hidden : List PyStr)
    (acc : List Nat) (r : TaskRow) : List Nat :=
  if row_excluded events hidden r then acc
  else
    match r.parent_id with
    | none => acc ++ [r.id]
    | some p => if acc.contains p then acc ++ [r.id] else acc

/-- The render walk over the displayed rows: the ids inserted into the tree,
in insertion order. -/
def refresh_render (events : List (Option Nat)) (hidden : List PyStr)
    (rows : List TaskRow) : List Nat :=
  rows.foldl (render_step events hidden) []

/-- Embeds `TasksPanel.refresh`: the set of task ids rendered for a query and a set
of sticky hide flags. -/
def tasks_rendered (tasks : List TaskRow) (events : List (Option Nat))
    (filter_str : PyStr) (hidden : List PyStr) : List Nat :=
  refresh_render events hidden (tasks_to_display tasks filter_str)

theorem nat_contains_iff (l : List Nat) (a : Nat) : l.contains a = true ↔ a ∈ l := by
  simp [List.contains, List.elem_iff]

theorem mem_render_step (ev : List (Option Nat)) (hid : List PyStr) (acc : List Nat)
    (r : TaskRow) (x : Nat) (hx : x ∈ acc) : x ∈ render_step ev hid acc r := by
  unfold render_step
  split_ifs with h
  · exact hx
  · rcases hr : r.parent_id with _ | p <;> simp only [hr]
    · simp [hx]
    · split_ifs with h2 <;> simp [hx]

theorem render_step_source (ev : List (Option Nat)) (hid : List PyStr) (acc : List Nat)
    (r : TaskRow) (x : Nat) (hx : x ∈ render_step ev hid acc r) : x ∈ acc ∨ x = r.id := by
  unfold render_step at hx
  split_ifs at hx with h
  · exact Or.inl hx
  · rcases hr : r.parent_id with _ | p
    · simp only [hr] at hx
      rcases List.mem_append.mp hx with h1 | h1
      · exact Or.inl h1
      · exact Or.inr (List.mem_singleton.mp h1)
    · simp only [hr] at hx
      split_ifs at hx
      · rcases List.mem_append.mp hx with h1 | h1
        · exact Or.inl h1
        · exact Or.inr (List.mem_singleton.mp h1)
      · exact Or.inl hx

theorem foldl_render_mono (ev : List (Option Nat)) (hid : List PyStr) :
    ∀ (rows : List TaskRow) (acc : List Nat) (x : Nat), x ∈ acc →
      x ∈ List.foldl (render_step ev hid) acc rows := by
  intro rows
  induction rows with
  | nil => intro acc x hx; exact hx
  | cons r rest ih =>
      intro acc x hx
      simp only [List.foldl_cons]
      exact ih _ x (mem_render_step ev hid acc r x hx)

theorem foldl_render_source (ev : List (Option Nat)) (hid : List PyStr) :
    ∀ (rows : List TaskRow) (acc : List Nat) (x : Nat),
      x ∈ List.foldl (render_step ev hid) acc rows →
      x ∈ acc ∨ ∃ r, r ∈ rows ∧ r.id = x := by
  intro rows
  induction rows with
  | nil => intro acc x hx; exact Or.inl hx
  | cons r rest ih =>
      intro acc x hx
      simp only [List.foldl_cons] at hx
      rcases ih _ x hx with h1 | ⟨r', hr', hrid⟩
      · rcases render_step_source ev hid acc r x h1 with h2 | h2
        · exact Or.inl h2
        · exact Or.inr ⟨r, List.mem_cons_self r rest, h2.symm⟩
      · exact Or.inr ⟨r', List.mem_cons_of_mem r hr', hrid⟩

/-- Fixpoint characterization of the render walk: under the hypothesis that
no row's parent id names a row at the same position or later, an id is
rendered iff its row is not excluded and its parent, when present, is itself
rendered (or was already in the accumulator). -/
theorem render_characterization (ev : List (Option Nat)) (hid : List PyStr) :
    ∀ (rows : List TaskRow) (acc : List Nat),
      rows.Pairwise (fun a b => a.parent_id ≠ some b.id) →
      ∀ x : Nat,
        (x ∈ List.foldl (render_step ev hid) acc rows ↔
          x ∈ acc ∨ ∃ r, r ∈ rows ∧ r.id = x ∧ row_excluded ev hid r = false ∧
            (r.parent_id = none ∨ ∃ p, r.parent_id = some p ∧
               p ∈ List.foldl (render_step ev hid) acc rows)) := by
  intro rows
  induction rows with
  | nil =>
      intro acc _ x
      simp
  | cons r rest ih =>
      intro acc hpar x
      obtain ⟨hhead, hrest⟩ := List.pairwise_cons.mp hpar
      simp only [List.foldl_cons]
      by_cases hexcl : row_excluded ev hid r = true
      · have hstep : render_step ev hid acc r = acc := by
          unfold render_step; rw [if_pos hexcl]
        rw [hstep, ih acc hrest x]
        constructor
        · rintro (hx | ⟨r', hr', hrid, hrex, hrpar⟩)
          · exact Or.inl hx
          · exact Or.inr ⟨r', List.mem_cons_of_mem r hr', hrid, hrex, hrpar⟩
        · rintro (hx | ⟨r', hr', hrid, hrex, hrpar⟩)
          · exact Or.inl hx
          · rcases List.mem_cons.mp hr' with heq | hmem
            · subst heq; rw [hexcl] at hrex; exact absurd hrex (by simp)
            · exact Or.inr ⟨r', hmem, hrid, hrex, hrpar⟩
      · replace hexcl : row_excluded ev hid r = false := by
          cases hb : row_excluded ev hid r
          · rfl
          · exact absurd hb hexcl
        rcases hparid : r.parent_id with _ | p
        · have hstep : render_step ev hid acc r = acc ++ [r.id] := by
            unfold render_step
            rw [if_neg (by simp [hexcl]), hparid]
          rw [hstep, ih (acc ++ [r.id]) hrest x]
          constructor
          · rintro (hx | ⟨r', hr', hrid, hrex, hrpar⟩)
            · rcases List.mem_append.mp hx with h1 | h1
              · exact Or.inl h1
              · exact Or.inr ⟨r, List.mem_cons_self r rest,
                  (List.mem_singleton.mp h1).symm, hexcl, Or.inl hparid⟩
            · exact Or.inr ⟨r', List.mem_cons_of_mem r hr', hrid, hrex, hrpar⟩
          · rintro (hx | ⟨r', hr', hrid, hrex, hrpar⟩)
            · exact Or.inl (List.mem_append.mpr (Or.inl hx))
            · rcases List.mem_cons.mp hr' with heq | hmem
              · subst heq
                exact Or.inl (List.mem_append.mpr (Or.inr (by simp [hrid.symm])))
              · exact Or.inr ⟨r', hmem, hrid, hrex, hrpar⟩
        · by_cases hpacc : p ∈ acc
          · have hstep : render_step ev hid acc r = acc ++ [r.id] := by
              unfold render_step
              rw [if_neg (by simp [hexcl]), hparid]
              show (if acc.contains p = true then acc ++ [r.id] else acc) = acc ++ [r.id]
              rw [if_pos ((nat_contains_iff acc p).mpr hpacc)]
            rw [hstep, ih (acc ++ [r.id]) hrest x]
            constructor
            · rintro (hx | ⟨r', hr', hrid, hrex, hrpar⟩)
              · rcases List.mem_append.mp hx with h1 | h1
                · exact Or.inl h1
                · refine Or.inr ⟨r, List.mem_cons_self r rest,
                    (List.mem_singleton.mp h1).symm, hexcl, Or.inr ⟨p, hparid, ?_⟩⟩
                  exact foldl_render_mono ev hid rest (acc ++ [r.id]) p
                    (List.mem_append.mpr (Or.inl hpacc))
              · exact Or.inr ⟨r', List.mem_cons_of_mem r hr', hrid, hrex, hrpar⟩
            · rintro (hx | ⟨r', hr', hrid, hrex, hrpar⟩)
              · exact Or.inl (List.mem_append.mpr (Or.inl hx))
              · rcases List.mem_cons.mp hr' with heq | hmem
                · subst heq
                  exact Or.inl (List.mem_append.mpr (Or.inr (by simp [hrid.symm])))
                · exact Or.inr ⟨r', hmem, hrid, hrex, hrpar⟩
          · have hstep : render_step ev hid acc r = acc := by
              unfold render_step
              rw [if_neg (by simp [hexcl]), hparid]
              show (if acc.contains p = true then acc ++ [r.id] else acc) = acc
              rw [if_neg (fun hc => hpacc ((nat_contains_iff acc p).mp hc))]
            rw [hstep, ih acc hrest x]
            constructor
            · rintro (hx | ⟨r', hr', hrid, hrex, hrpar⟩)
              · exact Or.inl hx
              · exact Or.inr ⟨r', List.mem_cons_of_mem r hr', hrid, hrex, hrpar⟩
            · rintro (hx | ⟨r', hr', hrid, hrex, hrpar⟩)
              · exact Or.inl hx
              · rcases List.mem_cons.mp hr' with heq | hmem
                · subst heq
                  rcases hrpar with hnone | ⟨p', hp', hpF⟩
                  · rw [hparid] at hnone; exact absurd hnone (by simp)
                  · rw [hparid] at hp'
                    have hpp : p = p' := Option.some.inj hp'
                    subst hpp
                    rcases foldl_render_source ev hid rest acc p hpF with h1 | ⟨r'', hr'', hrid''⟩
                    · exact absurd h1 hpacc
                    · exact absurd hparid (by rw [← hrid''] at hparid ⊢; exact hhead r'' hr'')
                · exact Or.inr ⟨r', hmem, hrid, hrex, hrpar⟩

/-- The forest `A → B → C` of the claim's examples: `C` (id 3, "gamma") is a
child of `B` (id 2, "beta", marked done), itself a child of `A` (id 1,
"alpha"); only "gamma" contains the query `"gam"`. -/
def forestABC : List TaskRow :=
  [{ id := 1, title := "alpha".data, notes := [], proj := none,
     parent_id := none, is_done := false },
   { id := 2, title := "beta".data, notes := [], proj := none,
     parent_id := some 1, is_done := true },
   { id := 3, title := "gamma".data, notes := [], proj := none,
     parent_id := some 2, is_done := false }]

/-- A forest in which a child's row precedes its parent's in creation order
(reachable by reparenting a task onto a later-created one, or by equal
`created_at` seconds). -/
def childFirst : List TaskRow :=
  [{ id := 2, title := "b".data, notes := [], proj := none,
     parent_id := some 1, is_done := false },
   { id := 1, title := "a".data, notes := [], proj := none,
     parent_id := none, is_done := false }]

/-- The first row of `childFirst`. -/
def childFirstTask : TaskRow :=
  { id := 2, title := "b".data, notes := [], proj := none,
    parent_id := some 1, is_done := false }

/-- C3 counterexample: in `childFirst` (empty query, no sticky flags) task 2
is in the closure set, not excluded, and its parent (task 1) is rendered,
yet task 2 is not rendered — the render walk met the child before the parent
row existed, so the claimed iff fails as stated. -/
theorem tasks_render_iff_counterexample :
    ¬ (∀ t ∈ childFirst,
        (t.id ∈ tasks_rendered childFirst [] [] [] ↔
          (in_closure childFirst [] t = true ∧ row_excluded [] [] t = false ∧
            (t.parent_id = none ∨ ∃ p, t.parent_id = some p ∧
               p ∈ tasks_rendered childFirst [] [] [])))) := by
  intro hall
  have h2 := hall childFirstTask (by decide)
  have hmem : (2 : Nat) ∈ tasks_rendered childFirst [] [] [] :=
    h2.mpr ⟨by decide, by decide, Or.inr ⟨1, rfl, by decide⟩⟩
  exact absurd hmem (by decide)

/-- C3 (amended): provided task ids are unique (the primary key) and no
task's parent row is at the same position or later in creation order — true
whenever every task was created after its parent and never reparented onto a
later task — a task is rendered iff it is in the closure set of the query,
not excluded by an active sticky flag, and its parent, if any, is itself
rendered.  The claim's two concrete examples hold as stated: for forest
`A → B → C` and a query matching only `C` the visible set is `{A, B, C}`;
with the empty query, hide-done active and `B` done, the rendered set is
`{A}` only. -/
theorem tasks_render_iff (tasks : List TaskRow) (ev : List (Option Nat)) (q : PyStr)
    (hid : List PyStr)
    (hnd : (tasks.map TaskRow.id).Nodup)
    (hpar : tasks.Pairwise (fun a b => a.parent_id ≠ some b.id)) :
    (∀ t ∈ tasks,
      (t.id ∈ tasks_rendered tasks ev q hid ↔
        (in_closure tasks q t = true ∧ row_excluded ev hid t = false ∧
          (t.parent_id = none ∨ ∃ p, t.parent_id = some p ∧
             p ∈ tasks_rendered tasks ev q hid)))) ∧
    tasks_rendered forestABC [] "gam".data [] = [1, 2, 3] ∧
    tasks_rendered forestABC [] [] ["Done".data] = [1] := by
  refine ⟨?_, by decide, by decide⟩
  intro t ht
  have hdisp : tasks_to_display tasks q = tasks.filter (in_closure tasks q) := by
    unfold tasks_to_display in_closure
    split_ifs with h
    · exact (List.filter_true tasks).symm
    · simp [h]
  have hpar' : (tasks.filter (in_closure tasks q)).Pairwise
      (fun a b => a.parent_id ≠ some b.id) :=
    List.Pairwise.sublist (List.filter_sublist tasks) hpar
  have hReq : tasks_rendered tasks ev q hid
      = List.foldl (render_step ev hid) [] (tasks.filter (in_closure tasks q)) := by
    unfold tasks_rendered refresh_render
    rw [hdisp]
  rw [hReq, render_characterization ev hid (tasks.filter (in_closure tasks q)) [] hpar' t.id]
  constructor
  · rintro (hx | ⟨r, hrmem, hrid, hrex, hrpar⟩)
    · exact absurd hx (List.not_mem_nil _)
    · obtain ⟨hrtasks, hrclos⟩ := List.mem_filter.mp hrmem
      have hrt : r = t := List.inj_on_of_nodup_map hnd hrtasks ht hrid
      subst hrt
      exact ⟨hrclos, hrex, hrpar⟩
  · rintro ⟨hclos, hex, hparcond⟩
    exact Or.inr ⟨t, List.mem_filter.mpr ⟨ht, hclos⟩, rfl, hex, hparcond⟩

/-- C3 witness: the hypotheses hold for the example forest and the theorem
yields the `{A, B, C}` visibility set there. -/
theorem tasks_render_iff_witness :
    ((forestABC.map TaskRow.id).Nodup ∧
      forestABC.Pairwise (fun a b => a.parent_id ≠ some b.id)) ∧
    tasks_rendered forestABC [] "gam".data [] = [1, 2, 3] :=
  ⟨⟨by decide, by decide⟩,
   (tasks_render_iff forestABC [] "gam".data [] (by decide) (by decide)).2.1⟩

end MyTime
